import Mathlib

/-!
# RosterPro weekly scheduler — verification of the constraint-model compiler

Shallow embedding of `app/engine/solver.py` (`solve_weekly_schedule`) together
with the input shape of `app/models/scheduler_input.py` and the solver-parameter
lines used by `app/routes/scheduler.py`.

The CP-SAT model built by `solve_weekly_schedule` is embedded as a satisfaction
predicate over explicit variable valuations:

* assignment variables `x[(u, d, s)]` (Python `NewBoolVar`) become a
  `String → Nat → String → Nat` valuation constrained to `≤ 1`;
* unmet-demand variables `unmet[(d, shift, role)]` (Python `NewIntVar(0, required)`)
  become a `Nat → String → String → Nat` valuation with the same domain constraint;
* the fairness variables `shift_dev[u]`, `night_dev[u]` become `String → Nat`
  valuations with their `NewIntVar(0, len(DAYS))` domains;
* each `model.Add(...)` line becomes one boolean conjunct in `hardSat` /
  `shiftDevOk` / `nightDevOk`, and `model.Minimize(...)` becomes `objective`.

Python `dict`s are embedded as association lists; dict iteration order is the
insertion (list) order, and the `Wf` predicate records the key uniqueness that
Python dicts guarantee by construction.
-/

namespace RosterPro

/-- `StaffMember` from `app/models/scheduler_input.py`: an id and a role. -/
structure StaffMember where
  id : String
  role : String
deriving DecidableEq, Repr

/-- The fields of `SchedulerInput` that `solve_weekly_schedule` reads.
`weekStart`, `unavailability`, `preferred_holidays` and `min_rest_hours` are
accepted by the pydantic model but never read by the solver, so they are not
part of the embedded state. -/
structure SchedulerInput where
  days : List String
  /-- `shifts`: shift name ↦ duration in hours. -/
  shifts : List (String × Nat)
  /-- `requirements`: shift name ↦ (role ↦ required headcount). -/
  requirements : List (String × List (String × Nat))
  staff : List StaffMember
  /-- `max_shifts_per_week`: role ↦ cap (a missing key means no constraint). -/
  max_shifts_per_week : List (String × Nat)
  /-- `max_weekly_hours`: role ↦ cap (a missing key means no constraint). -/
  max_weekly_hours : List (String × Nat)
deriving DecidableEq, Repr

/-- A valuation of every variable the compiled model creates. -/
structure Assignment where
  /-- value of `x[(u, d, s)]`; the model constrains it to `{0, 1}`. -/
  x : String → Nat → String → Nat
  /-- value of `unmet[(d, shift, role)]`. -/
  unmet : Nat → String → String → Nat
  /-- value of `shift_dev[u]`. -/
  shift_dev : String → Nat
  /-- value of `night_dev[u]`. -/
  night_dev : String → Nat

/-- `DAYS = list(range(len(input_data.days)))` (solver.py line 18). -/
def DAYS (inp : SchedulerInput) : List Nat := List.range inp.days.length

/-- `SHIFT_NAMES = list(input_data.shifts.keys())` (solver.py line 19). -/
def SHIFT_NAMES (inp : SchedulerInput) : List String := inp.shifts.map Prod.fst

/-- `staff_ids = [s.id for s in input_data.staff]` (solver.py line 21). -/
def staff_ids (inp : SchedulerInput) : List String := inp.staff.map StaffMember.id

/-- `roles = {s.id: s.role for s in input_data.staff}` (solver.py line 22):
dict comprehension, so a duplicated id keeps the last role. -/
def rolesMap (inp : SchedulerInput) (u : String) : String :=
  (((inp.staff.filter (fun s => s.id == u)).getLast?).map StaffMember.role).getD ""

/-- Duration of shift `s`: `input_data.shifts[s]`.  The solver only looks up
names drawn from `SHIFT_NAMES`, where the key is always present. -/
def shiftHours (inp : SchedulerInput) (s : String) : Nat :=
  (inp.shifts.lookup s).getD 0

/-- `sum(x[(u, d, shift)] for u in staff_ids if roles[u] == role)`
(solver.py lines 60–63). -/
def assignedCount (inp : SchedulerInput) (a : Assignment) (d : Nat)
    (shift role : String) : Nat :=
  (((staff_ids inp).filter (fun u => rolesMap inp u == role)).map
    (fun u => a.x u d shift)).sum

/-- `total_shifts = sum(x[(u, d, s)] for d in DAYS for s in SHIFT_NAMES)`
(solver.py line 110). -/
def totalShifts (inp : SchedulerInput) (a : Assignment) (u : String) : Nat :=
  ((DAYS inp).map (fun d => ((SHIFT_NAMES inp).map (fun s => a.x u d s)).sum)).sum

/-- Python `s.lower()`: character-wise lowercasing of the shift name (the
shift names in play are ASCII, where `str.lower()` lowercases each character). -/
def strLower (s : String) : String := ⟨s.data.map Char.toLower⟩

/-- `sum(x[(u, d, s)] for d in DAYS for s in SHIFT_NAMES if s.lower() == "night")`
(solver.py line 121). -/
def nightCount (inp : SchedulerInput) (a : Assignment) (u : String) : Nat :=
  ((DAYS inp).map (fun d =>
    (((SHIFT_NAMES inp).filter (fun s => strLower s == "night")).map
      (fun s => a.x u d s)).sum)).sum

/-- Domain of every `NewBoolVar` `x[(u, d, s)]` (solver.py lines 28–32). -/
def boolDomainOk (inp : SchedulerInput) (a : Assignment) : Bool :=
  (staff_ids inp).all fun u => (DAYS inp).all fun d => (SHIFT_NAMES inp).all fun s =>
    decide (a.x u d s ≤ 1)

/-- Domain of every `NewIntVar(0, required)` `unmet[(d, shift, role)]`
(solver.py lines 38–44). -/
def unmetDomainOk (inp : SchedulerInput) (a : Assignment) : Bool :=
  (DAYS inp).all fun d => inp.requirements.all fun p => p.2.all fun q =>
    decide (a.unmet d p.1 q.1 ≤ q.2)

/-- Constraint 1: one shift per user per day (solver.py lines 51–53). -/
def oneShiftOk (inp : SchedulerInput) (a : Assignment) : Bool :=
  (staff_ids inp).all fun u => (DAYS inp).all fun d =>
    decide (((SHIFT_NAMES inp).map (fun s => a.x u d s)).sum ≤ 1)

/-- Constraint 2: role coverage with the unmet slack,
`assigned + unmet == required` (solver.py lines 56–66). -/
def coverageOk (inp : SchedulerInput) (a : Assignment) : Bool :=
  (DAYS inp).all fun d => inp.requirements.all fun p => p.2.all fun q =>
    decide (assignedCount inp a d p.1 q.1 + a.unmet d p.1 q.1 = q.2)

/-- Constraint 3: max shifts per week per role, when declared
(solver.py lines 69–74). -/
def maxShiftsOk (inp : SchedulerInput) (a : Assignment) : Bool :=
  (staff_ids inp).all fun u =>
    match inp.max_shifts_per_week.lookup (rolesMap inp u) with
    | some limit => decide (totalShifts inp a u ≤ limit)
    | none => true

/-- `sum(x[(u, d, s)] * input_data.shifts[s] for d in DAYS for s in SHIFT_NAMES)`
(solver.py lines 81–85). -/
def weeklyHours (inp : SchedulerInput) (a : Assignment) (u : String) : Nat :=
  ((DAYS inp).map (fun d =>
    ((SHIFT_NAMES inp).map (fun s => a.x u d s * shiftHours inp s)).sum)).sum

/-- Constraint 4: max weekly hours per role, when declared
(solver.py lines 77–86). -/
def maxHoursOk (inp : SchedulerInput) (a : Assignment) : Bool :=
  (staff_ids inp).all fun u =>
    match inp.max_weekly_hours.lookup (rolesMap inp u) with
    | some limit => decide (weeklyHours inp a u ≤ limit)
    | none => true

/-- Constraint 5: no consecutive `"Night"` shifts, added only when a shift
literally named `"Night"` exists (solver.py lines 89–94). -/
def nightPairOk (inp : SchedulerInput) (a : Assignment) : Bool :=
  (staff_ids inp).all fun u => (List.range ((DAYS inp).length - 1)).all fun d =>
    if "Night" ∈ SHIFT_NAMES inp then
      decide (a.x u d "Night" + a.x u (d + 1) "Night" ≤ 1)
    else true

/-- All hard constraints of the compiled model (domains plus `model.Add` lines
1–5 of solver.py). -/
def hardSat (inp : SchedulerInput) (a : Assignment) : Bool :=
  boolDomainOk inp a && unmetDomainOk inp a && oneShiftOk inp a &&
    coverageOk inp a && maxShiftsOk inp a && maxHoursOk inp a && nightPairOk inp a

/-- `len([u for u in staff_ids if roles[u] == role])` (solver.py line 103). -/
def roleCount (inp : SchedulerInput) (role : String) : Nat :=
  ((staff_ids inp).filter (fun u => rolesMap inp u == role)).length

/-- `int(avg_shifts[role])` where
`avg_shifts[role] = len(DAYS) / max(len(users), 1)` (solver.py lines 104, 112–113).
Python divides as floats and `int()` truncates toward zero; for the 7-day
horizon both values are non-negative and the float quotient truncates exactly
to the natural-number quotient. -/
def target (inp : SchedulerInput) (role : String) : Nat :=
  inp.days.length / max (roleCount inp role) 1

/-- The two `shift_dev` constraints and the `NewIntVar(0, len(DAYS))` domain
(solver.py lines 107–113), written over `Nat`:
`shift_dev ≥ total − target` becomes `total ≤ shift_dev + target` and
`shift_dev ≥ target − total` becomes `target ≤ shift_dev + total`. -/
def shiftDevOk (inp : SchedulerInput) (a : Assignment) : Bool :=
  (staff_ids inp).all fun u =>
    decide (a.shift_dev u ≤ (DAYS inp).length) &&
    decide (totalShifts inp a u ≤ a.shift_dev u + target inp (rolesMap inp u)) &&
    decide (target inp (rolesMap inp u) ≤ a.shift_dev u + totalShifts inp a u)

/-- The `night_dev` lower bound and its `NewIntVar(0, len(DAYS))` domain
(solver.py lines 116–122).  The counted shifts are those whose name lowercases
to `"night"` (case-insensitive). -/
def nightDevOk (inp : SchedulerInput) (a : Assignment) : Bool :=
  (staff_ids inp).all fun u =>
    decide (a.night_dev u ≤ (DAYS inp).length) &&
    decide (nightCount inp a u ≤ a.night_dev u)

/-- The whole compiled model: hard constraints plus the fairness-deviation
constraints. -/
def modelSat (inp : SchedulerInput) (a : Assignment) : Bool :=
  hardSat inp a && shiftDevOk inp a && nightDevOk inp a

/-- `sum(unmet.values())`: the unmet dict is populated day-major then in
requirement order (solver.py lines 39–44, 128). -/
def sumUnmet (inp : SchedulerInput) (a : Assignment) : Nat :=
  ((DAYS inp).map (fun d =>
    (inp.requirements.map (fun p => (p.2.map (fun q => a.unmet d p.1 q.1)).sum)).sum)).sum

/-- `sum(shift_dev.values())` (solver.py line 129). -/
def sumShiftDev (inp : SchedulerInput) (a : Assignment) : Nat :=
  ((staff_ids inp).map a.shift_dev).sum

/-- `sum(night_dev.values())` (solver.py line 130). -/
def sumNightDev (inp : SchedulerInput) (a : Assignment) : Nat :=
  ((staff_ids inp).map a.night_dev).sum

/-- The minimized objective
`1000 * sum(unmet) + 10 * sum(shift_dev) + 5 * sum(night_dev)`
(solver.py lines 127–131). -/
def objective (inp : SchedulerInput) (a : Assignment) : Nat :=
  1000 * sumUnmet inp a + 10 * sumShiftDev inp a + 5 * sumNightDev inp a

/-- The smallest `shift_dev[u]` value its two constraints permit:
`max(total − target, target − total)`, i.e. `|total − target|`. -/
def minShiftDev (inp : SchedulerInput) (a : Assignment) (u : String) : Nat :=
  max (totalShifts inp a u - target inp (rolesMap inp u))
      (target inp (rolesMap inp u) - totalShifts inp a u)

/-- Every deviation variable sits at the minimum value its constraints permit:
`shift_dev[u] = |total − target|` and `night_dev[u]` equal to the
(case-insensitive) night-shift count. -/
def devsAtMin (inp : SchedulerInput) (a : Assignment) : Bool :=
  (staff_ids inp).all fun u =>
    decide (a.shift_dev u = minShiftDev inp a u) &&
    decide (a.night_dev u = nightCount inp a u)

/-- An objective-optimal accepted valuation of the compiled model. -/
def Optimal (inp : SchedulerInput) (a : Assignment) : Prop :=
  modelSat inp a = true ∧
    ∀ b : Assignment, modelSat inp b = true → objective inp a ≤ objective inp b

/-- Key-uniqueness facts that hold of every real input because the Python
fields are `dict`s (unique keys) and validated referentially, plus the fact —
not checked by the pydantic validators but required for `solve_weekly_schedule`
not to raise `KeyError` at `x[(u, d, shift)]` — that every shift named in
`requirements` is a declared shift type. -/
def Wf (inp : SchedulerInput) : Bool :=
  decide ((staff_ids inp).Nodup) &&
  decide ((SHIFT_NAMES inp).Nodup) &&
  decide ((inp.requirements.map Prod.fst).Nodup) &&
  inp.requirements.all fun p =>
    decide ((p.2.map Prod.fst).Nodup) && decide (p.1 ∈ SHIFT_NAMES inp)

/-! ## Solver invocation parameters (solver.py lines 136–138, routes/scheduler.py lines 19–22) -/

/-- `solver.parameters.max_time_in_seconds = min(max_time, 5)` (solver.py line 137).
The route passes `settings.SOLVER_MAX_TIME` (default 20) as `max_time`. -/
def max_time_in_seconds (max_time : ℚ) : ℚ := min max_time 5

/-- `solver.parameters.num_search_workers = 8` (solver.py line 138). -/
def num_search_workers : Nat := 8

/-! ## Response decoding (solver.py lines 142–191) -/

/-- The solver statuses CP-SAT can return. -/
inductive CpStatus
  | optimal
  | feasible
  | infeasible
  | model_invalid
  | unknown
deriving DecidableEq, Repr

/-- One `{"day": ..., "shifts": {...}}` entry of the returned schedule. -/
structure DayEntry where
  day : String
  shifts : List (String × List String)
deriving DecidableEq, Repr

/-- One per-staff summary entry `{"userId", "role", "totalShifts", "nightShifts"}`. -/
structure SummaryEntry where
  userId : String
  role : String
  totalShifts : Nat
  nightShifts : Nat
deriving DecidableEq, Repr

/-- The dict returned by `solve_weekly_schedule`: either the success/partial
shape with schedule, summary and violations, or the failure shape carrying
only a message. -/
inductive SolveResponse
  | ok (status : String) (schedule : List DayEntry) (summary : List SummaryEntry)
      (unmetDemand : List (String × Nat))
  | failed (status message : String)
deriving DecidableEq, Repr

/-- The schedule list (solver.py lines 152–166): for each day in declared
order, for each shift name, the staff ids whose `x` variable solved to 1, in
staff declaration order. -/
def scheduleOf (inp : SchedulerInput) (a : Assignment) : List DayEntry :=
  inp.days.enum.map fun p =>
    { day := p.2
      shifts := (SHIFT_NAMES inp).map fun s =>
        (s, (staff_ids inp).filter fun u => a.x u p.1 s == 1) }

/-- The sequence of staff ids in the order the decode loop visits positive
assignments: day-major, then shift, then staff order (solver.py lines 152–159). -/
def assignedSeq (inp : SchedulerInput) (a : Assignment) : List String :=
  (DAYS inp).flatMap fun d => (SHIFT_NAMES inp).flatMap fun s =>
    (staff_ids inp).filter fun u => a.x u d s == 1

/-- First-occurrence deduplication: the key order of a Python `defaultdict`
populated while scanning a sequence. -/
def firstDedup : List String → List String
  | [] => []
  | u :: l => u :: firstDedup (l.filter fun v => v != u)
termination_by l => l.length
decreasing_by
  simpa using Nat.lt_succ_of_le (List.length_filter_le _ l)

/-- `summary[u]["totalShifts"]`: the number of `(d, s)` pairs whose variable
solved to 1 (solver.py lines 158–160). -/
def countAssigned (inp : SchedulerInput) (a : Assignment) (u : String) : Nat :=
  ((DAYS inp).map fun d =>
    ((SHIFT_NAMES inp).map fun s => if a.x u d s == 1 then 1 else 0).sum).sum

/-- `summary[u]["nightShifts"]`: positive assignments whose shift name
lowercases to `"night"` (solver.py lines 161–162). -/
def countNightAssigned (inp : SchedulerInput) (a : Assignment) (u : String) : Nat :=
  ((DAYS inp).map fun d =>
    ((SHIFT_NAMES inp).map fun s =>
      if a.x u d s == 1 && strLower s == "night" then 1 else 0).sum).sum

/-- The summary list (solver.py lines 146–149, 171–178): one entry per staff
member that received at least one shift, in first-assignment order. -/
def summaryOf (inp : SchedulerInput) (a : Assignment) : List SummaryEntry :=
  (firstDedup (assignedSeq inp a)).map fun u =>
    { userId := u
      role := rolesMap inp u
      totalShifts := countAssigned inp a u
      nightShifts := countNightAssigned inp a u }

/-- The `violations.unmetDemand` map (solver.py lines 179–185): every unmet
variable with a strictly positive solved value, keyed by
`f"{input_data.days[d]}-{shift}-{role}"`, in unmet-dict insertion order. -/
def unmetViolations (inp : SchedulerInput) (a : Assignment) : List (String × Nat) :=
  (DAYS inp).flatMap fun d => inp.requirements.flatMap fun p =>
    p.2.filterMap fun q =>
      if 0 < a.unmet d p.1 q.1 then
        some (inp.days.getD d "" ++ "-" ++ p.1 ++ "-" ++ q.1, a.unmet d p.1 q.1)
      else none

/-- The whole response build (solver.py lines 151–191): `SUCCESS` on OPTIMAL,
`PARTIAL` on FEASIBLE (same decoding), otherwise the failure dict. -/
def buildResponse (inp : SchedulerInput) (st : CpStatus) (a : Assignment) :
    SolveResponse :=
  if st = CpStatus.optimal ∨ st = CpStatus.feasible then
    SolveResponse.ok (if st = CpStatus.optimal then "SUCCESS" else "PARTIAL")
      (scheduleOf inp a) (summaryOf inp a) (unmetViolations inp a)
  else
    SolveResponse.failed "FAILED" "No feasible schedule found"

/-! ## Requirement bump and assignment truncation

Used to settle the monotonicity claim: `bumpInp` raises one
`requirements[shift][role]` entry, and `truncAssign` turns an assignment that
is feasible for the raised instance into one feasible for the original by
keeping, for every requirement slot, only the first `required` matching-role
positive assignments in staff-declaration order. -/

/-- The declared requirement for `(shift, role)`, looked up the way
`solve_weekly_schedule` walks `input_data.requirements`. -/
def reqAt (inp : SchedulerInput) (sh r : String) : Option Nat :=
  (inp.requirements.lookup sh).bind fun rm => rm.lookup r

/-- Raise `requirements[sh0][r0]` by `k`, holding every other field and every
other requirement entry fixed. -/
def bumpInp (inp : SchedulerInput) (sh0 r0 : String) (k : Nat) : SchedulerInput :=
  { inp with
    requirements := inp.requirements.map fun p =>
      (p.1, if p.1 = sh0 then p.2.map (fun q => (q.1, if q.1 = r0 then q.2 + k else q.2))
            else p.2) }

/-- The `(d, s)` assignment mass sitting strictly before `u` in staff order,
restricted to staff sharing `u`'s role. -/
def prefixAssigned (inp : SchedulerInput) (a : Assignment) (d : Nat) (s u : String) : Nat :=
  ((((staff_ids inp).takeWhile fun v => v != u).filter
      (fun v => rolesMap inp v == rolesMap inp u)).map fun v => a.x v d s).sum

/-- Keep an assignment only while the requirement for its slot is not yet
filled by earlier staff; shifts with no requirement for the member's role are
left untouched. -/
def truncX (inp : SchedulerInput) (a : Assignment) (u : String) (d : Nat) (s : String) : Nat :=
  match reqAt inp s (rolesMap inp u) with
  | none => a.x u d s
  | some req => if prefixAssigned inp a d s u < req then a.x u d s else 0

/-- Matching-role assignment count of the truncated assignment. -/
def truncAssignedCount (inp : SchedulerInput) (a : Assignment) (d : Nat) (sh r : String) : Nat :=
  (((staff_ids inp).filter fun u => rolesMap inp u == r).map
    fun u => truncX inp a u d sh).sum

/-- The truncated assignment, with its unmet slack recomputed to balance each
requirement slot. -/
def truncAssign (inp : SchedulerInput) (a : Assignment) : Assignment :=
  { x := truncX inp a
    unmet := fun d sh r => (reqAt inp sh r).getD 0 - truncAssignedCount inp a d sh r
    shift_dev := a.shift_dev
    night_dev := a.night_dev }

/-! ## Concrete instances used as witnesses and counterexamples -/

/-- A 7-label week, as the validated input always carries. -/
def days7 : List String := ["d1", "d2", "d3", "d4", "d5", "d6", "d7"]

/-- One nurse, one 8-hour day shift, one nurse required per day, no caps. -/
def inpOne : SchedulerInput :=
  { days := days7
    shifts := [("Day", 8)]
    requirements := [("Day", [("Nurse", 1)])]
    staff := [⟨"n1", "Nurse"⟩]
    max_shifts_per_week := []
    max_weekly_hours := [] }

/-- `inpOne` solution: the nurse works every day; no unmet demand, zero
deviations (total = target = 7). -/
def aFull : Assignment :=
  { x := fun _ _ s => if s == "Day" then 1 else 0
    unmet := fun _ _ _ => 0
    shift_dev := fun _ => 0
    night_dev := fun _ => 0 }

/-- `inpOne` solution: nobody works; every day's demand is unmet and the
shift deviation sits at its minimum `|0 − 7| = 7`. -/
def bNone : Assignment :=
  { x := fun _ _ _ => 0
    unmet := fun _ _ _ => 1
    shift_dev := fun _ => 7
    night_dev := fun _ => 0 }

/-- Sixteen nurses. -/
def staffC2 : List StaffMember :=
  (List.range 16).map fun i => ⟨"n" ++ toString (i + 1), "Nurse"⟩

/-- Sixteen nurses, a required "Day" shift and an unrequired "Extra" shift. -/
def inpC2 : SchedulerInput :=
  { days := days7
    shifts := [("Day", 8), ("Extra", 8)]
    requirements := [("Day", [("Nurse", 1)])]
    staff := staffC2
    max_shifts_per_week := []
    max_weekly_hours := [] }

/-- `inpC2` solution A: n1 covers "Day" daily and the other fifteen nurses
work the unrequired "Extra" shift daily, so demand is fully met but every
nurse deviates by 7 from the target `7 / 16 = 0`. -/
def aC2A : Assignment :=
  { x := fun u _ s =>
      if s == "Day" then (if u == "n1" then 1 else 0)
      else if s == "Extra" then (if u == "n1" then 0 else 1) else 0
    unmet := fun _ _ _ => 0
    shift_dev := fun _ => 7
    night_dev := fun _ => 0 }

/-- `inpC2` solution B: n1 covers "Day" on the first six days only and nobody
else works; one unit of unmet demand and a single deviation of 6. -/
def aC2B : Assignment :=
  { x := fun u d s => if u == "n1" && s == "Day" && decide (d < 6) then 1 else 0
    unmet := fun d _ _ => if d == 6 then 1 else 0
    shift_dev := fun u => if u == "n1" then 6 else 0
    night_dev := fun _ => 0 }

/-- Two nurses; per-day demand: one on shift "S", two on shift "T". -/
def inpP : SchedulerInput :=
  { days := days7
    shifts := [("S", 8), ("T", 8)]
    requirements := [("S", [("Nurse", 1)]), ("T", [("Nurse", 2)])]
    staff := [⟨"n1", "Nurse"⟩, ⟨"n2", "Nurse"⟩]
    max_shifts_per_week := []
    max_weekly_hours := [] }

/-- `inpP` with the "S"/"Nurse" requirement raised from 1 to 2. -/
def inpP2 : SchedulerInput :=
  { days := days7
    shifts := [("S", 8), ("T", 8)]
    requirements := [("S", [("Nurse", 2)]), ("T", [("Nurse", 2)])]
    staff := [⟨"n1", "Nurse"⟩, ⟨"n2", "Nurse"⟩]
    max_shifts_per_week := []
    max_weekly_hours := [] }

/-- `inpP` solution: both nurses cover "T" every day, leaving the single "S"
demand unmet daily; each nurse's deviation is `|7 − 3| = 4`. -/
def aPA : Assignment :=
  { x := fun _ _ s => if s == "T" then 1 else 0
    unmet := fun _ sh _ => if sh == "S" then 1 else 0
    shift_dev := fun _ => 4
    night_dev := fun _ => 0 }

/-- `inpP2` solution: both nurses cover "S" every day, leaving both "T" units
unmet daily; each nurse's deviation is `|7 − 3| = 4`. -/
def aPB : Assignment :=
  { x := fun _ _ s => if s == "S" then 1 else 0
    unmet := fun _ sh _ => if sh == "T" then 2 else 0
    shift_dev := fun _ => 4
    night_dev := fun _ => 0 }

/-- One nurse and a single shift named `"NIGHT"` (uppercase): not literally
`"Night"`, but lowercasing to `"night"`. -/
def inpU : SchedulerInput :=
  { days := days7
    shifts := [("NIGHT", 8)]
    requirements := [("NIGHT", [("Nurse", 1)])]
    staff := [⟨"n1", "Nurse"⟩]
    max_shifts_per_week := []
    max_weekly_hours := [] }

/-- `inpU` solution: the nurse works "NIGHT" on days 0 and 1 — two consecutive
night-like shifts, which the model accepts because no shift is literally named
`"Night"`. -/
def aU : Assignment :=
  { x := fun _ d _ => if decide (d ≤ 1) then 1 else 0
    unmet := fun d _ _ => if decide (2 ≤ d) then 1 else 0
    shift_dev := fun _ => 5
    night_dev := fun _ => 2 }

/-- One nurse with a literal `"Night"` shift (plus a "Day" shift). -/
def inpNight : SchedulerInput :=
  { days := days7
    shifts := [("Night", 8), ("Day", 8)]
    requirements := [("Night", [("Nurse", 1)])]
    staff := [⟨"n1", "Nurse"⟩]
    max_shifts_per_week := []
    max_weekly_hours := [] }

/-- `inpNight` solution: the nurse works "Night" on alternating days (0, 2, 4,
6), satisfying the back-to-back restriction. -/
def aNight : Assignment :=
  { x := fun _ d s => if s == "Night" && d % 2 == 0 then 1 else 0
    unmet := fun d _ _ => if d % 2 == 1 then 1 else 0
    shift_dev := fun _ => 3
    night_dev := fun _ => 4 }

/-- A `bumpInp inpOne "Day" "Nurse" 1`-feasible valuation: the nurse works
every day and one unit of demand per day stays unmet. -/
def aBump : Assignment :=
  { x := fun _ _ s => if s == "Day" then 1 else 0
    unmet := fun _ _ _ => 1
    shift_dev := fun _ => 0
    night_dev := fun _ => 0 }

/-! ## List arithmetic helpers -/

theorem sum_map_le_mul {α : Type} (l : List α) (f : α → Nat) (c : Nat)
    (h : ∀ x ∈ l, f x ≤ c) : (l.map f).sum ≤ l.length * c := by
  induction l with
  | nil => simp
  | cons a t ih =>
    simp only [List.map_cons, List.sum_cons, List.length_cons]
    have ha := h a (List.mem_cons_self a t)
    have ht := ih fun x hx => h x (List.mem_cons_of_mem a hx)
    calc f a + (t.map f).sum ≤ c + t.length * c := Nat.add_le_add ha ht
    _ = (t.length + 1) * c := by ring

theorem sum_map_mono {α : Type} (l : List α) (f g : α → Nat)
    (h : ∀ x ∈ l, f x ≤ g x) : (l.map f).sum ≤ (l.map g).sum := by
  induction l with
  | nil => simp
  | cons a t ih =>
    simp only [List.map_cons, List.sum_cons]
    exact Nat.add_le_add (h a (List.mem_cons_self a t))
      (ih fun x hx => h x (List.mem_cons_of_mem a hx))

theorem sum_map_filter_le {α : Type} (l : List α) (p : α → Bool) (f : α → Nat) :
    ((l.filter p).map f).sum ≤ (l.map f).sum := by
  induction l with
  | nil => simp
  | cons a t ih =>
    by_cases hp : p a
    · simpa [List.filter_cons, hp] using Nat.add_le_add_left ih (f a)
    · simp only [List.filter_cons, hp, Bool.false_eq_true, if_false, List.map_cons,
        List.sum_cons]
      exact Nat.le_add_left _ (f a) |>.trans (Nat.add_le_add_left ih (f a))

theorem mem_le_sum {l : List Nat} {a : Nat} (h : a ∈ l) : a ≤ l.sum := by
  induction l with
  | nil => cases h
  | cons b t ih =>
    rw [List.sum_cons]
    rcases List.mem_cons.1 h with rfl | h
    · exact Nat.le_add_right _ _
    · exact (ih h).trans (Nat.le_add_left _ _)

theorem sum_map_update {l : List String} {f g : String → Nat} {u : String} {m : Nat}
    (hnd : l.Nodup) (hu : u ∈ l) (hg : ∀ v ∈ l, v ≠ u → g v = f v) (hgu : g u = m) :
    (l.map g).sum + f u = (l.map f).sum + m := by
  induction l with
  | nil => cases hu
  | cons a t ih =>
    simp only [List.map_cons, List.sum_cons]
    rcases List.mem_cons.1 hu with rfl | hut
    · have hrest : ∀ v ∈ t, g v = f v := by
        intro v hv
        exact hg v (List.mem_cons_of_mem _ hv)
          (fun hva => (List.nodup_cons.1 hnd).1 (hva ▸ hv))
      have : (t.map g).sum = (t.map f).sum :=
        congrArg List.sum (List.map_congr_left hrest)
      omega
    · have ha : g a = f a :=
        hg a (List.mem_cons_self a t) (fun hau => (List.nodup_cons.1 hnd).1 (hau ▸ hut))
      have := ih (List.nodup_cons.1 hnd).2 hut
        (fun v hv hvu => hg v (List.mem_cons_of_mem _ hv) hvu)
      omega

theorem mem_firstDedup (l : List String) (u : String) :
    u ∈ firstDedup l ↔ u ∈ l := by
  match l with
  | [] => simp [firstDedup]
  | a :: t =>
    rw [firstDedup]
    by_cases hua : u = a
    · simp [hua]
    · constructor
      · intro h
        rcases List.mem_cons.1 h with rfl | h2
        · exact List.mem_cons_self _ _
        · exact List.mem_cons_of_mem _
            (List.mem_filter.1 ((mem_firstDedup _ u).1 h2)).1
      · intro h
        rcases List.mem_cons.1 h with rfl | h2
        · exact List.mem_cons_self _ _
        · exact List.mem_cons_of_mem _ ((mem_firstDedup _ u).2
            (List.mem_filter.2 ⟨h2, by simpa [bne_iff_ne] using hua⟩))
termination_by l.length
decreasing_by
  all_goals simpa using Nat.lt_succ_of_le (List.length_filter_le _ t)

theorem lookup_of_nodup {β : Type} (l : List (String × β)) (k : String) (v : β)
    (hnd : (l.map Prod.fst).Nodup) (hm : (k, v) ∈ l) : l.lookup k = some v := by
  induction l with
  | nil => cases hm
  | cons p t ih =>
    obtain ⟨pk, pv⟩ := p
    rw [List.map_cons, List.nodup_cons] at hnd
    rcases List.mem_cons.1 hm with heq | hmt
    · injection heq with h1 h2
      subst h1; subst h2
      simp [List.lookup]
    · have hk : (k == pk) = false := by
        apply beq_eq_false_iff_ne.2
        rintro rfl
        exact hnd.1 (List.mem_map.2 ⟨(k, v), hmt, rfl⟩)
      simp only [List.lookup, hk]
      exact ih hnd.2 hmt

/-! ## Extraction lemmas: reading individual constraints back out of the model -/

theorem hard_of_modelSat {inp : SchedulerInput} {a : Assignment}
    (h : modelSat inp a = true) : hardSat inp a = true := by
  simp only [modelSat, Bool.and_eq_true] at h
  exact h.1.1

theorem hardSat_parts {inp : SchedulerInput} {a : Assignment}
    (h : hardSat inp a = true) :
    boolDomainOk inp a = true ∧ unmetDomainOk inp a = true ∧
      oneShiftOk inp a = true ∧ coverageOk inp a = true ∧
      maxShiftsOk inp a = true ∧ maxHoursOk inp a = true ∧
      nightPairOk inp a = true := by
  simp only [hardSat, Bool.and_eq_true] at h
  exact ⟨h.1.1.1.1.1.1, h.1.1.1.1.1.2, h.1.1.1.1.2, h.1.1.1.2, h.1.1.2, h.1.2, h.2⟩

theorem x_le_one {inp : SchedulerInput} {a : Assignment}
    (h : hardSat inp a = true) :
    ∀ u ∈ staff_ids inp, ∀ d ∈ DAYS inp, ∀ s ∈ SHIFT_NAMES inp, a.x u d s ≤ 1 := by
  have hb := (hardSat_parts h).1
  simpa only [boolDomainOk, List.all_eq_true, decide_eq_true_eq] using hb

theorem unmet_le_req {inp : SchedulerInput} {a : Assignment}
    (h : hardSat inp a = true) :
    ∀ d ∈ DAYS inp, ∀ p ∈ inp.requirements, ∀ q ∈ p.2, a.unmet d p.1 q.1 ≤ q.2 := by
  have hb := (hardSat_parts h).2.1
  simpa only [unmetDomainOk, List.all_eq_true, decide_eq_true_eq] using hb

theorem oneShift_le {inp : SchedulerInput} {a : Assignment}
    (h : hardSat inp a = true) :
    ∀ u ∈ staff_ids inp, ∀ d ∈ DAYS inp,
      ((SHIFT_NAMES inp).map (fun s => a.x u d s)).sum ≤ 1 := by
  have hb := (hardSat_parts h).2.2.1
  simpa only [oneShiftOk, List.all_eq_true, decide_eq_true_eq] using hb

theorem coverage_eq {inp : SchedulerInput} {a : Assignment}
    (h : hardSat inp a = true) :
    ∀ d ∈ DAYS inp, ∀ p ∈ inp.requirements, ∀ q ∈ p.2,
      assignedCount inp a d p.1 q.1 + a.unmet d p.1 q.1 = q.2 := by
  have hb := (hardSat_parts h).2.2.2.1
  simpa only [coverageOk, List.all_eq_true, decide_eq_true_eq] using hb

theorem maxShifts_le {inp : SchedulerInput} {a : Assignment}
    (h : hardSat inp a = true) :
    ∀ u ∈ staff_ids inp, ∀ limit : Nat,
      inp.max_shifts_per_week.lookup (rolesMap inp u) = some limit →
        totalShifts inp a u ≤ limit := by
  have hb := (hardSat_parts h).2.2.2.2.1
  simp only [maxShiftsOk, List.all_eq_true] at hb
  intro u hu limit hl
  have := hb u hu
  rw [hl] at this
  simpa using this

theorem maxHours_le {inp : SchedulerInput} {a : Assignment}
    (h : hardSat inp a = true) :
    ∀ u ∈ staff_ids inp, ∀ limit : Nat,
      inp.max_weekly_hours.lookup (rolesMap inp u) = some limit →
        weeklyHours inp a u ≤ limit := by
  have hb := (hardSat_parts h).2.2.2.2.2.1
  simp only [maxHoursOk, List.all_eq_true] at hb
  intro u hu limit hl
  have := hb u hu
  rw [hl] at this
  simpa using this

theorem nightPair_le {inp : SchedulerInput} {a : Assignment}
    (h : hardSat inp a = true) (hN : "Night" ∈ SHIFT_NAMES inp) :
    ∀ u ∈ staff_ids inp, ∀ d ∈ List.range ((DAYS inp).length - 1),
      a.x u d "Night" + a.x u (d + 1) "Night" ≤ 1 := by
  have hb := (hardSat_parts h).2.2.2.2.2.2
  simp only [nightPairOk, List.all_eq_true] at hb
  intro u hu d hd
  have := hb u hu d hd
  rw [if_pos hN] at this
  simpa using this

theorem shiftDev_facts {inp : SchedulerInput} {a : Assignment}
    (h : modelSat inp a = true) :
    ∀ u ∈ staff_ids inp,
      a.shift_dev u ≤ (DAYS inp).length ∧
      totalShifts inp a u ≤ a.shift_dev u + target inp (rolesMap inp u) ∧
      target inp (rolesMap inp u) ≤ a.shift_dev u + totalShifts inp a u := by
  simp only [modelSat, Bool.and_eq_true] at h
  have hb := h.1.2
  simp only [shiftDevOk, List.all_eq_true, Bool.and_eq_true, decide_eq_true_eq] at hb
  intro u hu
  exact ⟨(hb u hu).1.1, (hb u hu).1.2, (hb u hu).2⟩

theorem nightDev_facts {inp : SchedulerInput} {a : Assignment}
    (h : modelSat inp a = true) :
    ∀ u ∈ staff_ids inp,
      a.night_dev u ≤ (DAYS inp).length ∧ nightCount inp a u ≤ a.night_dev u := by
  simp only [modelSat, Bool.and_eq_true] at h
  have hb := h.2
  simp only [nightDevOk, List.all_eq_true, Bool.and_eq_true, decide_eq_true_eq] at hb
  exact hb

theorem totalShifts_le_days {inp : SchedulerInput} {a : Assignment}
    (h : hardSat inp a = true) (u : String) (hu : u ∈ staff_ids inp) :
    totalShifts inp a u ≤ inp.days.length := by
  have h1 : totalShifts inp a u ≤ (DAYS inp).length * 1 :=
    sum_map_le_mul _ _ _ fun d hd => oneShift_le h u hu d hd
  simpa [DAYS] using h1

theorem target_le_days (inp : SchedulerInput) (role : String) :
    target inp role ≤ inp.days.length :=
  Nat.div_le_self _ _

theorem nightCount_le_total {inp : SchedulerInput} (a : Assignment) (u : String) :
    nightCount inp a u ≤ totalShifts inp a u := by
  unfold nightCount totalShifts
  exact sum_map_mono _ _ _ fun d _ => sum_map_filter_le _ _ _

theorem devsAtMin_facts {inp : SchedulerInput} {a : Assignment}
    (h : devsAtMin inp a = true) :
    ∀ u ∈ staff_ids inp,
      a.shift_dev u = minShiftDev inp a u ∧ a.night_dev u = nightCount inp a u := by
  simp only [devsAtMin, List.all_eq_true, Bool.and_eq_true, decide_eq_true_eq] at h
  exact h

theorem Wf_parts {inp : SchedulerInput} (h : Wf inp = true) :
    (staff_ids inp).Nodup ∧ (SHIFT_NAMES inp).Nodup ∧
    (inp.requirements.map Prod.fst).Nodup ∧
    ∀ p ∈ inp.requirements, (p.2.map Prod.fst).Nodup ∧ p.1 ∈ SHIFT_NAMES inp := by
  simp only [Wf, Bool.and_eq_true, List.all_eq_true, Bool.and_eq_true,
    decide_eq_true_eq] at h
  exact ⟨h.1.1.1, h.1.1.2, h.1.2, h.2⟩

/-! ## Claim theorems -/

/-- C1: for every scheduling input and every requirement slot — a day index
together with a `(shift, role ↦ required)` entry of `requirements` — the
compiled model gives the slot's unmet-demand variable the domain
`[0, required]` and enforces
`assignedCount + unmet = required` exactly; hence both hold in every variable
assignment the model accepts. -/
theorem coverage_balance_invariant (inp : SchedulerInput) (a : Assignment)
    (h : modelSat inp a = true) :
    ∀ d ∈ DAYS inp, ∀ p ∈ inp.requirements, ∀ q ∈ p.2,
      a.unmet d p.1 q.1 ≤ q.2 ∧
      assignedCount inp a d p.1 q.1 + a.unmet d p.1 q.1 = q.2 := by
  intro d hd p hp q hq
  exact ⟨unmet_le_req (hard_of_modelSat h) d hd p hp q hq,
         coverage_eq (hard_of_modelSat h) d hd p hp q hq⟩

/-- Witness for C1 at `inpOne`/`aFull` and the slot (day 0, "Day", "Nurse"). -/
theorem coverage_balance_invariant_witness :
    aFull.unmet 0 "Day" "Nurse" ≤ 1 ∧
      assignedCount inpOne aFull 0 "Day" "Nurse" + aFull.unmet 0 "Day" "Nurse" = 1 :=
  coverage_balance_invariant inpOne aFull (by decide) 0 (by decide)
    ("Day", [("Nurse", 1)]) (by decide) ("Nurse", 1) (by decide)

/-- C5: the model forbids back-to-back `"Night"` assignments for every staff
member and consecutive-day pair whenever a shift literally named `"Night"`
(case-sensitively) is declared; and the check is literal: `inpU` declares only
`"NIGHT"`, and the model accepts a valuation working `"NIGHT"` on two
consecutive days. -/
theorem night_back_to_back_iff_literal :
    (∀ (inp : SchedulerInput) (a : Assignment), modelSat inp a = true →
      "Night" ∈ SHIFT_NAMES inp →
      ∀ u ∈ staff_ids inp, ∀ d ∈ List.range ((DAYS inp).length - 1),
        a.x u d "Night" + a.x u (d + 1) "Night" ≤ 1) ∧
    (modelSat inpU aU = true ∧ "Night" ∉ SHIFT_NAMES inpU ∧
      aU.x "n1" 0 "NIGHT" = 1 ∧ aU.x "n1" 1 "NIGHT" = 1) := by
  constructor
  · intro inp a h hN u hu d hd
    exact nightPair_le (hard_of_modelSat h) hN u hu d hd
  · exact ⟨by decide, by decide, by decide, by decide⟩

/-- Witness for C5 at `inpNight`/`aNight`, staff "n1", days 0 and 1. -/
theorem night_back_to_back_iff_literal_witness :
    aNight.x "n1" 0 "Night" + aNight.x "n1" 1 "Night" ≤ 1 :=
  night_back_to_back_iff_literal.1 inpNight aNight (by decide) (by decide)
    "n1" (by decide) 0 (by decide)

/-- C6: for every requested time budget the effective wall-clock limit handed
to the solver is `min(requested, 5)` — so it never exceeds the hard 5-second
ceiling, equals the request below the ceiling and equals 5 above it — and the
solver is asked for 8 concurrent search workers. -/
theorem solver_parameters (t : ℚ) :
    max_time_in_seconds t ≤ 5 ∧
    (t ≤ 5 → max_time_in_seconds t = t) ∧
    (5 ≤ t → max_time_in_seconds t = 5) ∧
    num_search_workers = 8 :=
  ⟨min_le_right _ _, fun h => min_eq_left h, fun h => min_eq_right h, rfl⟩

/-- Witness for C6 at the route's default budget `SOLVER_MAX_TIME = 20`. -/
theorem solver_parameters_witness :
    max_time_in_seconds 20 ≤ 5 ∧ max_time_in_seconds 20 = 5 ∧
      num_search_workers = 8 :=
  ⟨(solver_parameters 20).1, (solver_parameters 20).2.2.1 (by norm_num),
    (solver_parameters 20).2.2.2⟩

/-- C7: the response is `SUCCESS` exactly on the OPTIMAL solver status and
`PARTIAL` exactly on FEASIBLE — with literally the same decoded schedule,
summary and violations — and every other status yields only
`{status: "FAILED", message: ...}` with no schedule, summary or violations. -/
theorem status_mapping (inp : SchedulerInput) (a : Assignment) (st : CpStatus) :
    (st = CpStatus.optimal →
      buildResponse inp st a = SolveResponse.ok "SUCCESS" (scheduleOf inp a)
        (summaryOf inp a) (unmetViolations inp a)) ∧
    (st = CpStatus.feasible →
      buildResponse inp st a = SolveResponse.ok "PARTIAL" (scheduleOf inp a)
        (summaryOf inp a) (unmetViolations inp a)) ∧
    (st ≠ CpStatus.optimal → st ≠ CpStatus.feasible →
      buildResponse inp st a =
        SolveResponse.failed "FAILED" "No feasible schedule found") := by
  refine ⟨?_, ?_, ?_⟩
  · rintro rfl; simp [buildResponse]
  · rintro rfl; simp [buildResponse]
  · intro h1 h2
    cases st
    · exact absurd rfl h1
    · exact absurd rfl h2
    all_goals simp [buildResponse]

/-- Witness for C7: the UNKNOWN status maps to the failure dict. -/
theorem status_mapping_witness :
    buildResponse inpOne CpStatus.unknown bNone =
      SolveResponse.failed "FAILED" "No feasible schedule found" :=
  (status_mapping inpOne bNone CpStatus.unknown).2.2 (by decide) (by decide)

/-- C10: the model's `night_dev` lower bound counts assignments to every shift
whose name lowercases to `"night"`, and on the concrete `inpU` (whose only
shift is `"NIGHT"`, not literally `"Night"`) the accepted valuation `aU` has
both decoded `nightShifts` and model-side night count equal to 2 even though
the back-to-back constraint (which matches only `"Night"`) did not apply to
its consecutive assignments. -/
theorem night_counting_case_insensitive :
    (∀ (inp : SchedulerInput) (a : Assignment), modelSat inp a = true →
      ∀ u ∈ staff_ids inp, nightCount inp a u ≤ a.night_dev u) ∧
    (modelSat inpU aU = true ∧ aU.x "n1" 0 "NIGHT" = 1 ∧ aU.x "n1" 1 "NIGHT" = 1 ∧
      countNightAssigned inpU aU "n1" = 2 ∧ nightCount inpU aU "n1" = 2 ∧
      "NIGHT" ≠ "Night" ∧ strLower "NIGHT" = "night") := by
  constructor
  · intro inp a h u hu
    exact (nightDev_facts h u hu).2
  · exact ⟨by decide, by decide, by decide, by decide, by decide, by decide, by decide⟩

/-- Witness for C10: the case-insensitive night-count lower bound at `inpU`. -/
theorem night_counting_case_insensitive_witness :
    nightCount inpU aU "n1" ≤ aU.night_dev "n1" :=
  night_counting_case_insensitive.1 inpU aU (by decide) "n1" (by decide)

/-- Membership characterization of the decoded `unmetDemand` map. -/
theorem mem_unmetViolations (inp : SchedulerInput) (a : Assignment)
    (pr : String × Nat) :
    pr ∈ unmetViolations inp a ↔
      ∃ d p q, d ∈ DAYS inp ∧ p ∈ inp.requirements ∧ q ∈ p.2 ∧
        0 < a.unmet d p.1 q.1 ∧
        pr = (inp.days.getD d "" ++ "-" ++ p.1 ++ "-" ++ q.1, a.unmet d p.1 q.1) := by
  unfold unmetViolations
  simp only [List.mem_flatMap, List.mem_filterMap]
  constructor
  · rintro ⟨d, hd, p, hp, q, hq, hpr⟩
    by_cases hpos : 0 < a.unmet d p.1 q.1
    · rw [if_pos hpos] at hpr
      exact ⟨d, p, q, hd, hp, hq, hpos, (Option.some_inj.1 hpr).symm⟩
    · rw [if_neg hpos] at hpr; cases hpr
  · rintro ⟨d, p, q, hd, hp, hq, hpos, rfl⟩
    exact ⟨d, hd, p, hp, q, hq, by rw [if_pos hpos]⟩

/-- C8: on any SUCCESS or PARTIAL response, the `violations.unmetDemand` map
holds an entry exactly for the requirement slots whose unmet variable solved
strictly positive, keyed `"<day label>-<shift>-<role>"` with the shortfall as
value; zero-unmet slots contribute no entry. -/
theorem unmet_violations_sparse (inp : SchedulerInput) (a : Assignment)
    (st : CpStatus) (status : String) (sched : List DayEntry)
    (summ : List SummaryEntry) (viol : List (String × Nat))
    (h : buildResponse inp st a = SolveResponse.ok status sched summ viol)
    (pr : String × Nat) :
    pr ∈ viol ↔
      ∃ d p q, d ∈ DAYS inp ∧ p ∈ inp.requirements ∧ q ∈ p.2 ∧
        0 < a.unmet d p.1 q.1 ∧
        pr = (inp.days.getD d "" ++ "-" ++ p.1 ++ "-" ++ q.1, a.unmet d p.1 q.1) := by
  have hviol : viol = unmetViolations inp a := by
    cases st <;> simp [buildResponse] at h <;> tauto
  rw [hviol]
  exact mem_unmetViolations inp a pr

/-- Witness for C8: on `inpOne` with nobody working, day 1's shortfall of 1
appears under the key "d1-Day-Nurse". -/
theorem unmet_violations_sparse_witness :
    ("d1-Day-Nurse", 1) ∈ unmetViolations inpOne bNone :=
  (unmet_violations_sparse inpOne bNone CpStatus.optimal "SUCCESS"
      (scheduleOf inpOne bNone) (summaryOf inpOne bNone)
      (unmetViolations inpOne bNone) (by simp [buildResponse])
      ("d1-Day-Nurse", 1)).mpr
    ⟨0, ("Day", [("Nurse", 1)]), ("Nurse", 1), by decide, by decide, by decide,
      by decide, by decide⟩

/-- C9: the decoded per-staff summary carries an entry for a staff member iff
the solved assignment gives that member at least one shift (so zero-shift
staff are omitted rather than listed with `totalShifts = 0`), and every listed
entry has `totalShifts ≥ 1`. -/
theorem summary_omits_unassigned (inp : SchedulerInput) (a : Assignment)
    (u : String) :
    ((∃ e ∈ summaryOf inp a, e.userId = u) ↔
      u ∈ staff_ids inp ∧
        ∃ d ∈ DAYS inp, ∃ s ∈ SHIFT_NAMES inp, a.x u d s = 1) ∧
    (∀ e ∈ summaryOf inp a, 1 ≤ e.totalShifts) := by
  constructor
  · constructor
    · rintro ⟨e, he, rfl⟩
      obtain ⟨v, hv, rfl⟩ := List.mem_map.1 he
      have hvseq := (mem_firstDedup _ _).1 hv
      simp only [assignedSeq, List.mem_flatMap, List.mem_filter, beq_iff_eq] at hvseq
      obtain ⟨d, hd, s, hs, hu, hx⟩ := hvseq
      exact ⟨hu, d, hd, s, hs, hx⟩
    · rintro ⟨hu, d, hd, s, hs, hx⟩
      refine ⟨_, List.mem_map.2 ⟨u, ?_, rfl⟩, rfl⟩
      apply (mem_firstDedup _ _).2
      simp only [assignedSeq, List.mem_flatMap, List.mem_filter, beq_iff_eq]
      exact ⟨d, hd, s, hs, hu, hx⟩
  · intro e he
    obtain ⟨v, hv, rfl⟩ := List.mem_map.1 he
    have hvseq := (mem_firstDedup _ _).1 hv
    simp only [assignedSeq, List.mem_flatMap, List.mem_filter, beq_iff_eq] at hvseq
    obtain ⟨d, hd, s, hs, _, hx⟩ := hvseq
    show 1 ≤ countAssigned inp a v
    have hsterm : (if a.x v d s == 1 then 1 else 0 : Nat) = 1 := by
      simp [hx]
    have hmem : (if a.x v d s == 1 then 1 else 0 : Nat) ∈
        ((SHIFT_NAMES inp).map fun s2 => if a.x v d s2 == 1 then 1 else 0) :=
      List.mem_map.2 ⟨s, hs, rfl⟩
    have hinner := mem_le_sum hmem
    rw [hsterm] at hinner
    exact hinner.trans (mem_le_sum (List.mem_map.2 ⟨d, hd, rfl⟩))

/-- Witness for C9: in `inpOne`/`aFull` the nurse appears in the summary. -/
theorem summary_omits_unassigned_witness :
    ∃ e ∈ summaryOf inpOne aFull, e.userId = "n1" :=
  (summary_omits_unassigned inpOne aFull "n1").1.mpr
    ⟨by decide, 0, by decide, "Day", by decide, by decide⟩

/-- C2 counterexample: with 16 nurses (`inpC2`), valuation `aC2A` meets all
demand while `aC2B` leaves one unit unmet, both satisfy every model constraint
with their deviation variables at the minimum values permitted, yet
`objective aC2A = 1120 > 1060 = objective aC2B` — the fairness terms offset a
full unit of unmet demand, so the dominance claimed for every input fails. -/
theorem weight_dominance_counterexample :
    modelSat inpC2 aC2A = true ∧ modelSat inpC2 aC2B = true ∧
    devsAtMin inpC2 aC2A = true ∧ devsAtMin inpC2 aC2B = true ∧
    sumUnmet inpC2 aC2A < sumUnmet inpC2 aC2B ∧
    ¬(objective inpC2 aC2A < objective inpC2 aC2B) :=
  ⟨by decide, by decide, by decide, by decide, by decide, by decide⟩

/-- C2 amended: the unmet-demand weight dominates the fairness terms whenever
the total fairness mass is bounded below the coverage weight — concretely when
`15 · |staff| · |days| < 1000` (each of the `|staff|` deviation variables is
bounded by `|days|`); then any accepted valuation with strictly lower total
unmet demand has a strictly lower objective, regardless of the fairness
values. -/
theorem weight_dominance_small_staff (inp : SchedulerInput) (A B : Assignment)
    (hA : hardSat inp A = true) (hB : hardSat inp B = true)
    (hAm : devsAtMin inp A = true) (hBm : devsAtMin inp B = true)
    (hU : sumUnmet inp A < sumUnmet inp B)
    (hsize : 15 * (inp.staff.length * inp.days.length) < 1000) :
    objective inp A < objective inp B := by
  have hsdA : sumShiftDev inp A ≤ inp.staff.length * inp.days.length := by
    have hb : ∀ u ∈ staff_ids inp, A.shift_dev u ≤ inp.days.length := by
      intro u hu
      have hmin := (devsAtMin_facts hAm u hu).1
      have ht := totalShifts_le_days hA u hu
      have htg := target_le_days inp (rolesMap inp u)
      rw [hmin]
      unfold minShiftDev
      omega
    have := sum_map_le_mul (staff_ids inp) A.shift_dev inp.days.length hb
    simpa [sumShiftDev, staff_ids, List.length_map] using this
  have hndA : sumNightDev inp A ≤ inp.staff.length * inp.days.length := by
    have hb : ∀ u ∈ staff_ids inp, A.night_dev u ≤ inp.days.length := by
      intro u hu
      have hmin := (devsAtMin_facts hAm u hu).2
      have ht := totalShifts_le_days hA u hu
      have hnt : nightCount inp A u ≤ totalShifts inp A u := nightCount_le_total A u
      omega
    have := sum_map_le_mul (staff_ids inp) A.night_dev inp.days.length hb
    simpa [sumNightDev, staff_ids, List.length_map] using this
  have hOA : objective inp A =
      1000 * sumUnmet inp A + 10 * sumShiftDev inp A + 5 * sumNightDev inp A := rfl
  have hOB : objective inp B =
      1000 * sumUnmet inp B + 10 * sumShiftDev inp B + 5 * sumNightDev inp B := rfl
  generalize hP : inp.staff.length * inp.days.length = P at hsdA hndA hsize
  omega

/-- Witness for C2 amended: at `inpOne`, full coverage (`aFull`) beats no
coverage (`bNone`) in the objective. -/
theorem weight_dominance_small_staff_witness :
    15 * (inpOne.staff.length * inpOne.days.length) < 1000 ∧
      objective inpOne aFull < objective inpOne bNone :=
  ⟨by decide,
    weight_dominance_small_staff inpOne aFull bNone (by decide) (by decide)
      (by decide) (by decide) (by decide) (by decide)⟩

/-- C4: the compiler computes `target = |days| / max(1, |staff with role R|)`
(truncated division) and constrains `shift_dev[u]` from both sides of
`total − target`; consequently, in any objective-optimal accepted valuation of
a well-formed input, `shift_dev[u]` equals the absolute difference
`|totalShifts u − target|` for every staff member. -/
theorem shift_dev_exact_at_optimum (inp : SchedulerInput) (a : Assignment)
    (u : String) (hw : Wf inp = true) (hopt : Optimal inp a)
    (hu : u ∈ staff_ids inp) :
    target inp (rolesMap inp u) =
      inp.days.length / max (roleCount inp (rolesMap inp u)) 1 ∧
    totalShifts inp a u ≤ a.shift_dev u + target inp (rolesMap inp u) ∧
    target inp (rolesMap inp u) ≤ a.shift_dev u + totalShifts inp a u ∧
    a.shift_dev u = minShiftDev inp a u := by
  obtain ⟨hm, hbest⟩ := hopt
  obtain ⟨hdom, hlow, hhigh⟩ := shiftDev_facts hm u hu
  refine ⟨rfl, hlow, hhigh, ?_⟩
  have hge : minShiftDev inp a u ≤ a.shift_dev u := by
    unfold minShiftDev; omega
  by_contra hne
  have hlt : minShiftDev inp a u < a.shift_dev u :=
    lt_of_le_of_ne hge fun e => hne e.symm
  have hm2 := hm
  simp only [modelSat, Bool.and_eq_true] at hm2
  obtain ⟨⟨hhard, _⟩, hnd⟩ := hm2
  set m := minShiftDev inp a u with hmdef
  set b : Assignment :=
    { a with shift_dev := fun v => if v = u then m else a.shift_dev v } with hbdef
  have hhardb : hardSat inp b = true := hhard
  have hndb : nightDevOk inp b = true := hnd
  have hsdb : shiftDevOk inp b = true := by
    simp only [shiftDevOk, List.all_eq_true, Bool.and_eq_true, decide_eq_true_eq]
    intro v hv
    by_cases hvu : v = u
    · subst hvu
      have ht := totalShifts_le_days hhard v hv
      have htg := target_le_days inp (rolesMap inp v)
      have htot : totalShifts inp b v = totalShifts inp a v := rfl
      rw [if_pos rfl, htot, hmdef]
      unfold minShiftDev
      refine ⟨⟨by omega, by omega⟩, by omega⟩
    · obtain ⟨h1, h2, h3⟩ := shiftDev_facts hm v hv
      have htot : totalShifts inp b v = totalShifts inp a v := rfl
      rw [if_neg hvu, htot]
      exact ⟨⟨h1, h2⟩, h3⟩
  have hbmodel : modelSat inp b = true := by
    simp only [modelSat, Bool.and_eq_true]
    exact ⟨⟨hhardb, hsdb⟩, hndb⟩
  have hupd : ((staff_ids inp).map b.shift_dev).sum + a.shift_dev u
      = ((staff_ids inp).map a.shift_dev).sum + m :=
    sum_map_update (Wf_parts hw).1 hu (fun v _ hvu => if_neg hvu) (if_pos rfl)
  have hobj : objective inp b < objective inp a := by
    have e0 : sumShiftDev inp b + a.shift_dev u = sumShiftDev inp a + m := hupd
    have e1 : objective inp b =
        1000 * sumUnmet inp a + 10 * sumShiftDev inp b + 5 * sumNightDev inp a := rfl
    have e2 : objective inp a =
        1000 * sumUnmet inp a + 10 * sumShiftDev inp a + 5 * sumNightDev inp a := rfl
    omega
  exact absurd (hbest b hbmodel) (by omega)

/-- Witness for C4: `aFull` is optimal for `inpOne` (its objective is 0), and
its `shift_dev` value for the nurse is the absolute deviation `|7 − 7| = 0`. -/
theorem shift_dev_exact_at_optimum_witness :
    aFull.shift_dev "n1" = minShiftDev inpOne aFull "n1" :=
  (shift_dev_exact_at_optimum inpOne aFull "n1" (by decide)
    ⟨by decide, fun b _ => Nat.zero_le _⟩ (by decide)).2.2.2

/-- Per-day combination of the two coverage equalities of one day. -/
theorem day_comb {r1 r2 x1S x2S x1T x2T uS uT : Nat}
    (hS : x1S + x2S + uS = r1) (hT : x1T + x2T + uT = r2) :
    (uS + uT) + ((x1S + x1T) + (x2S + x2T)) = r1 + r2 := by omega

/-- A week of per-day loads bounded by 1 sums to at most 7. -/
theorem sum7_le {a0 a1 a2 a3 a4 a5 a6 : Nat}
    (h0 : a0 ≤ 1) (h1 : a1 ≤ 1) (h2 : a2 ≤ 1) (h3 : a3 ≤ 1)
    (h4 : a4 ≤ 1) (h5 : a5 ≤ 1) (h6 : a6 ≤ 1) :
    a0 + (a1 + (a2 + (a3 + (a4 + (a5 + a6))))) ≤ 7 := by omega

/-- Summing the seven per-day combined coverage equalities. -/
theorem coverage_total {r u0 u1 u2 u3 u4 u5 u6 a0 a1 a2 a3 a4 a5 a6 b0 b1 b2 b3 b4 b5 b6 : Nat}
    (p0 : u0 + (a0 + b0) = r) (p1 : u1 + (a1 + b1) = r)
    (p2 : u2 + (a2 + b2) = r) (p3 : u3 + (a3 + b3) = r)
    (p4 : u4 + (a4 + b4) = r) (p5 : u5 + (a5 + b5) = r)
    (p6 : u6 + (a6 + b6) = r) :
    (u0 + (u1 + (u2 + (u3 + (u4 + (u5 + u6)))))) +
      ((a0 + (a1 + (a2 + (a3 + (a4 + (a5 + a6)))))) +
       (b0 + (b1 + (b2 + (b3 + (b4 + (b5 + b6))))))) = 7 * r := by omega

/-- The two-nurse objective bound: with total demand `R`, at most 14
assignments, and deviation at least `total − 3` per nurse, the objective is at
least `1000(R − 14) + 80`. -/
theorem final_bound {U T1 T2 sd1 sd2 nd1 nd2 Obj R : Nat}
    (hsum : U + (T1 + T2) = R) (h14 : 14 ≤ R) (h1 : T1 ≤ 7) (h2 : T2 ≤ 7)
    (d1 : T1 ≤ sd1 + 3) (d2 : T2 ≤ sd2 + 3)
    (hObj : Obj = 1000 * U + 10 * (sd1 + sd2) + 5 * (nd1 + nd2)) :
    1000 * (R - 14) + 80 ≤ Obj := by omega

/-- Any accepted valuation of `inpP` has objective at least 7080
(= 1000·7 unmet + 10·(4+4) deviation): two nurses can cover at most 14 of the
21 weekly demand units, and full employment forces a deviation of 4 each. -/
theorem inpP_obj_lower (b : Assignment) (hb : modelSat inpP b = true) :
    7080 ≤ objective inpP b := by
  have hhard := hard_of_modelSat hb
  have covS : ∀ d ∈ DAYS inpP,
      b.x "n1" d "S" + b.x "n2" d "S" + b.unmet d "S" "Nurse" = 1 :=
    fun d hd => coverage_eq hhard d hd ("S", [("Nurse", 1)]) (by decide)
      ("Nurse", 1) (by decide)
  have covT : ∀ d ∈ DAYS inpP,
      b.x "n1" d "T" + b.x "n2" d "T" + b.unmet d "T" "Nurse" = 2 :=
    fun d hd => coverage_eq hhard d hd ("T", [("Nurse", 2)]) (by decide)
      ("Nurse", 2) (by decide)
  have one : ∀ u ∈ staff_ids inpP, ∀ d ∈ DAYS inpP,
      b.x u d "S" + b.x u d "T" ≤ 1 := oneShift_le hhard
  have hsum := coverage_total (day_comb (covS 0 (by decide)) (covT 0 (by decide)))
    (day_comb (covS 1 (by decide)) (covT 1 (by decide)))
    (day_comb (covS 2 (by decide)) (covT 2 (by decide)))
    (day_comb (covS 3 (by decide)) (covT 3 (by decide)))
    (day_comb (covS 4 (by decide)) (covT 4 (by decide)))
    (day_comb (covS 5 (by decide)) (covT 5 (by decide)))
    (day_comb (covS 6 (by decide)) (covT 6 (by decide)))
  have h1le : totalShifts inpP b "n1" ≤ 7 :=
    sum7_le (one "n1" (by decide) 0 (by decide)) (one "n1" (by decide) 1 (by decide))
      (one "n1" (by decide) 2 (by decide)) (one "n1" (by decide) 3 (by decide))
      (one "n1" (by decide) 4 (by decide)) (one "n1" (by decide) 5 (by decide))
      (one "n1" (by decide) 6 (by decide))
  have h2le : totalShifts inpP b "n2" ≤ 7 :=
    sum7_le (one "n2" (by decide) 0 (by decide)) (one "n2" (by decide) 1 (by decide))
      (one "n2" (by decide) 2 (by decide)) (one "n2" (by decide) 3 (by decide))
      (one "n2" (by decide) 4 (by decide)) (one "n2" (by decide) 5 (by decide))
      (one "n2" (by decide) 6 (by decide))
  obtain ⟨-, hd1b, -⟩ := shiftDev_facts hb "n1" (by decide)
  obtain ⟨-, hd2b, -⟩ := shiftDev_facts hb "n2" (by decide)
  have hd1 : totalShifts inpP b "n1" ≤ b.shift_dev "n1" + 3 := hd1b
  have hd2 : totalShifts inpP b "n2" ≤ b.shift_dev "n2" + 3 := hd2b
  have hobj : objective inpP b =
      1000 * ((b.unmet 0 "S" "Nurse" + b.unmet 0 "T" "Nurse") +
        ((b.unmet 1 "S" "Nurse" + b.unmet 1 "T" "Nurse") +
        ((b.unmet 2 "S" "Nurse" + b.unmet 2 "T" "Nurse") +
        ((b.unmet 3 "S" "Nurse" + b.unmet 3 "T" "Nurse") +
        ((b.unmet 4 "S" "Nurse" + b.unmet 4 "T" "Nurse") +
        ((b.unmet 5 "S" "Nurse" + b.unmet 5 "T" "Nurse") +
        (b.unmet 6 "S" "Nurse" + b.unmet 6 "T" "Nurse"))))))) +
      10 * (b.shift_dev "n1" + b.shift_dev "n2") +
      5 * (b.night_dev "n1" + b.night_dev "n2") := rfl
  exact final_bound hsum (by decide) h1le h2le hd1 hd2 hobj

/-- Any accepted valuation of `inpP2` has objective at least 14080
(= 1000·14 unmet + 10·(4+4) deviation). -/
theorem inpP2_obj_lower (b : Assignment) (hb : modelSat inpP2 b = true) :
    14080 ≤ objective inpP2 b := by
  have hhard := hard_of_modelSat hb
  have covS : ∀ d ∈ DAYS inpP2,
      b.x "n1" d "S" + b.x "n2" d "S" + b.unmet d "S" "Nurse" = 2 :=
    fun d hd => coverage_eq hhard d hd ("S", [("Nurse", 2)]) (by decide)
      ("Nurse", 2) (by decide)
  have covT : ∀ d ∈ DAYS inpP2,
      b.x "n1" d "T" + b.x "n2" d "T" + b.unmet d "T" "Nurse" = 2 :=
    fun d hd => coverage_eq hhard d hd ("T", [("Nurse", 2)]) (by decide)
      ("Nurse", 2) (by decide)
  have one : ∀ u ∈ staff_ids inpP2, ∀ d ∈ DAYS inpP2,
      b.x u d "S" + b.x u d "T" ≤ 1 := oneShift_le hhard
  have hsum := coverage_total (day_comb (covS 0 (by decide)) (covT 0 (by decide)))
    (day_comb (covS 1 (by decide)) (covT 1 (by decide)))
    (day_comb (covS 2 (by decide)) (covT 2 (by decide)))
    (day_comb (covS 3 (by decide)) (covT 3 (by decide)))
    (day_comb (covS 4 (by decide)) (covT 4 (by decide)))
    (day_comb (covS 5 (by decide)) (covT 5 (by decide)))
    (day_comb (covS 6 (by decide)) (covT 6 (by decide)))
  have h1le : totalShifts inpP2 b "n1" ≤ 7 :=
    sum7_le (one "n1" (by decide) 0 (by decide)) (one "n1" (by decide) 1 (by decide))
      (one "n1" (by decide) 2 (by decide)) (one "n1" (by decide) 3 (by decide))
      (one "n1" (by decide) 4 (by decide)) (one "n1" (by decide) 5 (by decide))
      (one "n1" (by decide) 6 (by decide))
  have h2le : totalShifts inpP2 b "n2" ≤ 7 :=
    sum7_le (one "n2" (by decide) 0 (by decide)) (one "n2" (by decide) 1 (by decide))
      (one "n2" (by decide) 2 (by decide)) (one "n2" (by decide) 3 (by decide))
      (one "n2" (by decide) 4 (by decide)) (one "n2" (by decide) 5 (by decide))
      (one "n2" (by decide) 6 (by decide))
  obtain ⟨-, hd1b, -⟩ := shiftDev_facts hb "n1" (by decide)
  obtain ⟨-, hd2b, -⟩ := shiftDev_facts hb "n2" (by decide)
  have hd1 : totalShifts inpP2 b "n1" ≤ b.shift_dev "n1" + 3 := hd1b
  have hd2 : totalShifts inpP2 b "n2" ≤ b.shift_dev "n2" + 3 := hd2b
  have hobj : objective inpP2 b =
      1000 * ((b.unmet 0 "S" "Nurse" + b.unmet 0 "T" "Nurse") +
        ((b.unmet 1 "S" "Nurse" + b.unmet 1 "T" "Nurse") +
        ((b.unmet 2 "S" "Nurse" + b.unmet 2 "T" "Nurse") +
        ((b.unmet 3 "S" "Nurse" + b.unmet 3 "T" "Nurse") +
        ((b.unmet 4 "S" "Nurse" + b.unmet 4 "T" "Nurse") +
        ((b.unmet 5 "S" "Nurse" + b.unmet 5 "T" "Nurse") +
        (b.unmet 6 "S" "Nurse" + b.unmet 6 "T" "Nurse"))))))) +
      10 * (b.shift_dev "n1" + b.shift_dev "n2") +
      5 * (b.night_dev "n1" + b.night_dev "n2") := rfl
  exact final_bound hsum (by decide) h1le h2le hd1 hd2 hobj

/-- C3 counterexample: `inpP2` is exactly `inpP` with the "S"/"Nurse"
requirement raised from 1 to 2 (staff, shifts, caps, other requirements
unchanged), `aPA` is objective-optimal for `inpP` with unmet demand 1 at slot
(day 0, "S", "Nurse"), and `aPB` is objective-optimal for `inpP2` with unmet
demand 0 at that same slot: raising the requirement DECREASED the slot's
reported unmet demand in an optimal solution. -/
theorem unmet_monotonicity_counterexample :
    Optimal inpP aPA ∧ Optimal inpP2 aPB ∧
    inpP2 = bumpInp inpP "S" "Nurse" 1 ∧
    inpP2.days = inpP.days ∧ inpP2.shifts = inpP.shifts ∧
    inpP2.staff = inpP.staff ∧
    inpP2.max_shifts_per_week = inpP.max_shifts_per_week ∧
    inpP2.max_weekly_hours = inpP.max_weekly_hours ∧
    reqAt inpP "S" "Nurse" = some 1 ∧ reqAt inpP2 "S" "Nurse" = some 2 ∧
    reqAt inpP "T" "Nurse" = some 2 ∧ reqAt inpP2 "T" "Nurse" = some 2 ∧
    aPB.unmet 0 "S" "Nurse" < aPA.unmet 0 "S" "Nurse" := by
  refine ⟨⟨by decide, ?_⟩, ⟨by decide, ?_⟩, by decide, rfl, rfl, rfl, rfl, rfl,
    by decide, by decide, by decide, by decide, by decide⟩
  · intro b hb
    have h1 := inpP_obj_lower b hb
    have h2 : objective inpP aPA = 7080 := by decide
    omega
  · intro b hb
    have h1 := inpP2_obj_lower b hb
    have h2 : objective inpP2 aPB = 14080 := by decide
    omega

/-- Unfolding `truncX` when the member's slot has a declared requirement. -/
theorem truncX_of_some {inp : SchedulerInput} {a : Assignment} {u : String}
    {d : Nat} {s : String} {req : Nat}
    (h : reqAt inp s (rolesMap inp u) = some req) :
    truncX inp a u d s =
      if prefixAssigned inp a d s u < req then a.x u d s else 0 := by
  unfold truncX
  rw [h]

/-- The truncated assignment never exceeds the original. -/
theorem truncX_le (inp : SchedulerInput) (a : Assignment) (u : String) (d : Nat)
    (s : String) : truncX inp a u d s ≤ a.x u d s := by
  unfold truncX
  cases reqAt inp s (rolesMap inp u) with
  | none => exact le_refl _
  | some req =>
    dsimp only
    split
    · exact le_refl _
    · exact Nat.zero_le _

/-- Keeping only prefix-budgeted elements of a duplicate-free list sums to the
minimum of the full sum and the budget. -/
theorem trunc_sum (l : List String) (f : String → Nat) (req : Nat)
    (hnd : l.Nodup) (hf : ∀ v ∈ l, f v ≤ 1) :
    (l.map fun u =>
        if ((l.takeWhile fun v => v != u).map f).sum < req then f u else 0).sum
      = min ((l.map f).sum) req := by
  match l with
  | [] => simp
  | a :: t =>
    have hmem : a ∉ t := (List.nodup_cons.1 hnd).1
    have hta : ((a :: t).takeWhile fun v => v != a) = [] := by
      simp [List.takeWhile_cons]
    rw [List.map_cons, List.sum_cons, List.map_cons, List.sum_cons, hta]
    have htail : (t.map fun u =>
        if (((a :: t).takeWhile fun v => v != u).map f).sum < req then f u else 0)
        = t.map fun u =>
            if ((t.takeWhile fun v => v != u).map f).sum < req - f a then f u
            else 0 := by
      apply List.map_congr_left
      intro u hu
      have hau : (a != u) = true := by
        simp only [bne_iff_ne, ne_eq]
        rintro rfl
        exact hmem hu
      rw [List.takeWhile_cons, hau, if_pos rfl, List.map_cons, List.sum_cons]
      exact if_congr (by omega) rfl rfl
    rw [htail, trunc_sum t f (req - f a) (List.nodup_cons.1 hnd).2
      (fun v hv => hf v (List.mem_cons_of_mem _ hv))]
    have hfa := hf a (List.mem_cons_self a t)
    simp only [List.map_nil, List.sum_nil]
    by_cases h0 : 0 < req
    · rw [if_pos h0]; omega
    · rw [if_neg h0]; omega
termination_by l.length
decreasing_by all_goals simp

/-- Restricting to a predicate commutes with cutting at the first occurrence
of an element satisfying it. -/
theorem takeWhile_filter_comm (l : List String) (u : String) (p : String → Bool)
    (hpu : p u = true) :
    ((l.takeWhile fun v => v != u).filter p) =
      ((l.filter p).takeWhile fun v => v != u) := by
  induction l with
  | nil => rfl
  | cons a t ih =>
    by_cases hau : a = u
    · subst hau
      simp [List.takeWhile_cons, List.filter_cons, hpu]
    · have hau' : (a != u) = true := by simpa [bne_iff_ne] using hau
      by_cases hpa : p a = true
      · simp [List.takeWhile_cons, List.filter_cons, hau', hpa, ih]
      · simp [List.takeWhile_cons, List.filter_cons, hau',
          Bool.of_not_eq_true hpa, ih]

/-- The truncated matching-role count of a requirement slot is the original
count capped at the requirement. -/
theorem truncAssignedCount_eq (inp : SchedulerInput) (a : Assignment) (d : Nat)
    (sh r : String) (req : Nat) (hreq : reqAt inp sh r = some req)
    (hnd : (staff_ids inp).Nodup)
    (hx : ∀ u ∈ staff_ids inp, a.x u d sh ≤ 1) :
    truncAssignedCount inp a d sh r = min (assignedCount inp a d sh r) req := by
  unfold truncAssignedCount assignedCount
  have hLnd : ((staff_ids inp).filter fun u => rolesMap inp u == r).Nodup :=
    hnd.filter _
  have hLx : ∀ u ∈ (staff_ids inp).filter fun u => rolesMap inp u == r,
      a.x u d sh ≤ 1 := fun u hu => hx u (List.mem_of_mem_filter hu)
  rw [← trunc_sum ((staff_ids inp).filter fun u => rolesMap inp u == r)
      (fun v => a.x v d sh) req hLnd hLx]
  apply congrArg List.sum
  apply List.map_congr_left
  intro u hu
  have hrole : rolesMap inp u = r := by
    have h2 := (List.mem_filter.1 hu).2
    exact eq_of_beq h2
  have hpre : prefixAssigned inp a d sh u
      = ((((staff_ids inp).filter fun v => rolesMap inp v == r).takeWhile
          fun v => v != u).map fun v => a.x v d sh).sum := by
    unfold prefixAssigned
    simp only [hrole]
    rw [takeWhile_filter_comm _ u _ (by simp [hrole])]
  rw [truncX_of_some (hrole ▸ hreq), hpre]

/-- C3 amended: in this model a requirement entry is `requirements[shift][role]`
and applies to every day; raising one entry by `k` (staff, shift types, caps
and all other entries fixed) can only raise achievable unmet demand — from any
valuation satisfying the raised model's hard constraints, the truncation keeping
only the first `required` matching-role assignments of each slot satisfies the
original model's hard constraints with unmet demand no larger at every
requirement slot (in particular at the raised slot) and no larger in total.
Hence the minimum unmet demand reachable at the slot (or in total) never
decreases; the original claim's per-optimal-solution form is refuted by the
counterexample. -/
theorem unmet_monotonic_in_requirement (inp : SchedulerInput) (sh0 r0 : String)
    (k : Nat) (a : Assignment) (hw : Wf inp = true)
    (hb : hardSat (bumpInp inp sh0 r0 k) a = true) :
    hardSat inp (truncAssign inp a) = true ∧
    (∀ d ∈ DAYS inp, ∀ p ∈ inp.requirements, ∀ q ∈ p.2,
      (truncAssign inp a).unmet d p.1 q.1 ≤ a.unmet d p.1 q.1) ∧
    sumUnmet inp (truncAssign inp a) ≤ sumUnmet (bumpInp inp sh0 r0 k) a := by
  have hx1 : ∀ u ∈ staff_ids inp, ∀ d ∈ DAYS inp, ∀ s ∈ SHIFT_NAMES inp,
      a.x u d s ≤ 1 := fun u hu d hd s hs => x_le_one hb u hu d hd s hs
  have hbump_cov : ∀ d ∈ DAYS inp, ∀ p ∈ inp.requirements, ∀ q ∈ p.2,
      ∃ rq : Nat, q.2 ≤ rq ∧
        assignedCount inp a d p.1 q.1 + a.unmet d p.1 q.1 = rq := by
    intro d hd p hp q hq
    by_cases hsh : p.1 = sh0
    · have hp' : (p.1, p.2.map fun q2 => (q2.1, if q2.1 = r0 then q2.2 + k else q2.2))
          ∈ (bumpInp inp sh0 r0 k).requirements := by
        refine List.mem_map.2 ⟨p, hp, ?_⟩
        dsimp only
        rw [if_pos hsh]
      by_cases hr : q.1 = r0
      · refine ⟨q.2 + k, Nat.le_add_right _ _, ?_⟩
        have hq' : (q.1, q.2 + k) ∈
            p.2.map fun q2 => (q2.1, if q2.1 = r0 then q2.2 + k else q2.2) := by
          refine List.mem_map.2 ⟨q, hq, ?_⟩
          dsimp only
          rw [if_pos hr]
        exact coverage_eq hb d hd _ hp' _ hq'
      · refine ⟨q.2, le_refl _, ?_⟩
        have hq' : (q.1, q.2) ∈
            p.2.map fun q2 => (q2.1, if q2.1 = r0 then q2.2 + k else q2.2) := by
          refine List.mem_map.2 ⟨q, hq, ?_⟩
          dsimp only
          rw [if_neg hr]
        exact coverage_eq hb d hd _ hp' _ hq'
    · refine ⟨q.2, le_refl _, ?_⟩
      have hp' : (p.1, p.2) ∈ (bumpInp inp sh0 r0 k).requirements := by
        refine List.mem_map.2 ⟨p, hp, ?_⟩
        dsimp only
        rw [if_neg hsh]
      exact coverage_eq hb d hd _ hp' _ hq
  have hreqAt : ∀ p ∈ inp.requirements, ∀ q ∈ p.2,
      reqAt inp p.1 q.1 = some q.2 := by
    intro p hp q hq
    have h1 : inp.requirements.lookup p.1 = some p.2 :=
      lookup_of_nodup _ _ _ (Wf_parts hw).2.2.1 hp
    have h2 : p.2.lookup q.1 = some q.2 :=
      lookup_of_nodup _ _ _ ((Wf_parts hw).2.2.2 p hp).1 hq
    unfold reqAt
    rw [h1]
    exact h2
  have htc : ∀ d ∈ DAYS inp, ∀ p ∈ inp.requirements, ∀ q ∈ p.2,
      truncAssignedCount inp a d p.1 q.1 =
        min (assignedCount inp a d p.1 q.1) q.2 :=
    fun d hd p hp q hq =>
      truncAssignedCount_eq inp a d p.1 q.1 q.2 (hreqAt p hp q hq)
        (Wf_parts hw).1
        (fun u hu => hx1 u hu d hd p.1 ((Wf_parts hw).2.2.2 p hp).2)
  have htu : ∀ (d : Nat), ∀ p ∈ inp.requirements, ∀ q ∈ p.2,
      (truncAssign inp a).unmet d p.1 q.1 =
        q.2 - truncAssignedCount inp a d p.1 q.1 := by
    intro d p hp q hq
    show (reqAt inp p.1 q.1).getD 0 - truncAssignedCount inp a d p.1 q.1 = _
    rw [hreqAt p hp q hq]
    rfl
  have hslot : ∀ d ∈ DAYS inp, ∀ p ∈ inp.requirements, ∀ q ∈ p.2,
      (truncAssign inp a).unmet d p.1 q.1 ≤ a.unmet d p.1 q.1 := by
    intro d hd p hp q hq
    rw [htu d p hp q hq]
    obtain ⟨rq, hrq, hcv⟩ := hbump_cov d hd p hp q hq
    have hmin := htc d hd p hp q hq
    omega
  have hhard_tr : hardSat inp (truncAssign inp a) = true := by
    simp only [hardSat, Bool.and_eq_true]
    refine ⟨⟨⟨⟨⟨⟨?_, ?_⟩, ?_⟩, ?_⟩, ?_⟩, ?_⟩, ?_⟩
    · -- boolDomainOk
      simp only [boolDomainOk, List.all_eq_true, decide_eq_true_eq]
      intro u hu d hd s hs
      exact (truncX_le inp a u d s).trans (hx1 u hu d hd s hs)
    · -- unmetDomainOk
      simp only [unmetDomainOk, List.all_eq_true, decide_eq_true_eq]
      intro d hd p hp q hq
      rw [htu d p hp q hq]
      exact Nat.sub_le _ _
    · -- oneShiftOk
      simp only [oneShiftOk, List.all_eq_true, decide_eq_true_eq]
      intro u hu d hd
      exact (sum_map_mono _ _ _ fun s _ => truncX_le inp a u d s).trans
        (oneShift_le hb u hu d hd)
    · -- coverageOk
      simp only [coverageOk, List.all_eq_true, decide_eq_true_eq]
      intro d hd p hp q hq
      have hmin := htc d hd p hp q hq
      have he : assignedCount inp (truncAssign inp a) d p.1 q.1 =
          truncAssignedCount inp a d p.1 q.1 := rfl
      rw [he, htu d p hp q hq]
      omega
    · -- maxShiftsOk
      simp only [maxShiftsOk, List.all_eq_true]
      intro u hu
      cases hlook : inp.max_shifts_per_week.lookup (rolesMap inp u) with
      | none => rfl
      | some limit =>
        show decide (totalShifts inp (truncAssign inp a) u ≤ limit) = true
        simp only [decide_eq_true_eq]
        have hmono : totalShifts inp (truncAssign inp a) u ≤ totalShifts inp a u :=
          sum_map_mono _ _ _ fun d _ =>
            sum_map_mono _ _ _ fun s _ => truncX_le inp a u d s
        exact hmono.trans (maxShifts_le hb u hu limit hlook)
    · -- maxHoursOk
      simp only [maxHoursOk, List.all_eq_true]
      intro u hu
      cases hlook : inp.max_weekly_hours.lookup (rolesMap inp u) with
      | none => rfl
      | some limit =>
        show decide (weeklyHours inp (truncAssign inp a) u ≤ limit) = true
        simp only [decide_eq_true_eq]
        have hmono : weeklyHours inp (truncAssign inp a) u ≤ weeklyHours inp a u :=
          sum_map_mono _ _ _ fun d _ =>
            sum_map_mono _ _ _ fun s _ =>
              Nat.mul_le_mul_right _ (truncX_le inp a u d s)
        exact hmono.trans (maxHours_le hb u hu limit hlook)
    · -- nightPairOk
      simp only [nightPairOk, List.all_eq_true]
      intro u hu d hd
      by_cases hN : "Night" ∈ SHIFT_NAMES inp
      · rw [if_pos hN]
        simp only [decide_eq_true_eq]
        exact (Nat.add_le_add (truncX_le inp a u d "Night")
          (truncX_le inp a u (d + 1) "Night")).trans
          (nightPair_le hb hN u hu d hd)
      · rw [if_neg hN]
  have hsum_bump : sumUnmet (bumpInp inp sh0 r0 k) a = sumUnmet inp a := by
    unfold sumUnmet bumpInp
    dsimp only
    apply congrArg List.sum
    apply List.map_congr_left
    intro d _
    rw [List.map_map]
    apply congrArg List.sum
    apply List.map_congr_left
    intro p _
    dsimp only [Function.comp]
    by_cases hsh : p.1 = sh0
    · rw [if_pos hsh, List.map_map]
      rfl
    · rw [if_neg hsh]
  have hsum_le : sumUnmet inp (truncAssign inp a) ≤ sumUnmet inp a := by
    unfold sumUnmet
    apply sum_map_mono
    intro d hd
    apply sum_map_mono
    intro p hp
    apply sum_map_mono
    intro q hq
    exact hslot d hd p hp q hq
  exact ⟨hhard_tr, hslot, hsum_bump ▸ hsum_le⟩

/-- Witness for C3 amended: `inpOne` with the "Day"/"Nurse" requirement raised
from 1 to 2 and the nurse working daily; truncation yields an assignment
feasible for `inpOne` with no more total unmet demand. -/
theorem unmet_monotonic_in_requirement_witness :
    hardSat inpOne (truncAssign inpOne aBump) = true ∧
      sumUnmet inpOne (truncAssign inpOne aBump) ≤
        sumUnmet (bumpInp inpOne "Day" "Nurse" 1) aBump :=
  ⟨(unmet_monotonic_in_requirement inpOne "Day" "Nurse" 1 aBump
      (by decide) (by decide)).1,
    (unmet_monotonic_in_requirement inpOne "Day" "Nurse" 1 aBump
      (by decide) (by decide)).2.2⟩

end RosterPro
